import Mathlib

/-!
# Verification of the chanop.py command sequencer and channel-state caches

This file is a shallow embedding, in Lean 4, of the core of the WeeChat
`chanop.py` operator-helper script: the case-insensitive caches
(`CaseInsensibleDict`, `MaskList`, `MaskCache`, `UserList`), the hostmask
utilities (`is_hostmask`, `is_hostname`, `get_nick`, `get_user`, `get_host`,
`hex_to_ip`, `is_ip`, `pattern_match`, `hostmask_pattern_match`), the ban-mask
builder (`make_banmask`), the fetch FIFO (`MaskCache.fetch`,
`masklist_add_cb`, `masklist_end_cb`) and the command queue
(`CommandQueue.queue`, `CommandQueue.run`, `WaitForOp`, `queue_continue_cb`,
`queue_timeout_cb`).

Python dictionaries keyed by `CaseInsensibleString` are modelled as
association lists whose lookups compare keys after lowercasing each
character (`str.lower`, ASCII-effective here); the stored key keeps its
original spelling, as the Python dict keeps the first inserted key object.
Python exceptions that the source can raise are modelled with `Option`
(`none` = the call raised); WeeChat side effects (sent commands, error and
info messages, hooks/timers) are recorded explicitly in the state records.
-/

namespace Chanop

/-- `str.lower()` applied to a key, the fold used by `CaseInsensibleString`
for equality and hashing (ASCII lowering, as `Char.toLower`). -/
def foldK (s : String) : String :=
  ⟨s.data.map Char.toLower⟩

/-- Lookup in a `CaseInsensibleDict` modelled as an association list:
the first entry whose key lowercases to the same string. -/
def lookupCI (k : String) : List (String × α) → Option α
  | [] => none
  | (k', v) :: rest => if foldK k' = foldK k then some v else lookupCI k rest

/-- `k in d` for a `CaseInsensibleDict`. -/
def containsCI (k : String) (l : List (String × α)) : Bool :=
  (lookupCI k l).isSome

/-- `d[k] = v` for a `CaseInsensibleDict`: overwrite the value of the first
(case-insensitively) matching entry, keeping the originally stored key, or
append a fresh entry. -/
def setCI (k : String) (v : α) : List (String × α) → List (String × α)
  | [] => [(k, v)]
  | (k', v') :: rest =>
      if foldK k' = foldK k then (k', v) :: rest else (k', v') :: setCI k v rest

/-- `del d[k]` for a `CaseInsensibleDict`: drop the first (case-insensitively)
matching entry; on a missing key the Python code always catches the
`KeyError`, so the model leaves the list unchanged. -/
def eraseCI (k : String) : List (String × α) → List (String × α)
  | [] => []
  | (k', v') :: rest =>
      if foldK k' = foldK k then rest else (k', v') :: eraseCI k rest

/-- Number of entries of the association list matching `k` case-insensitively
(a real dict keeps this at most 1). -/
def countCI (k : String) (l : List (String × α)) : Nat :=
  (l.filter (fun p => foldK p.1 = foldK k)).length

/-- The dict invariant: no two entries share a case-folded key. -/
def keysNodup (l : List (String × α)) : Prop :=
  (l.map (fun p => foldK p.1)).Nodup

instance (l : List (String × α)) : Decidable (keysNodup l) := by
  unfold keysNodup; infer_instance

/-! ## Python string primitives -/

/-- Python `s.find(c)`: index of the first occurrence, `-1` if absent. -/
def pyFindL (c : Char) : List Char → Int
  | [] => -1
  | x :: xs => if x = c then 0 else (if pyFindL c xs < 0 then -1 else pyFindL c xs + 1)

def pyFind (s : String) (c : Char) : Int := pyFindL c s.data

/-- Python slice `s[a:b]` for non-negative bounds. -/
def sliceL (l : List Char) (a b : Nat) : List Char := (l.take b).drop a

/-- The whitespace set of Python's `str.strip()` / `str.split()`. -/
def pyIsSpace (c : Char) : Bool :=
  c = ' ' || c = '\t' || c = '\n' || c = '\r' || c = '\x0B' || c = '\x0C'

def pyStripL (l : List Char) : List Char :=
  ((l.dropWhile pyIsSpace).reverse.dropWhile pyIsSpace).reverse

/-- Python `s.split(' ', 1)[1]`: the part after the first space; `none` when
there is no space (where the subscript `[1]` would raise `IndexError`). -/
def afterFirstSpaceL : List Char → Option (List Char)
  | [] => none
  | c :: rest => if c = ' ' then some rest else afterFirstSpaceL rest

/-- Python `s.split()` (split on whitespace runs, no empty tokens). -/
def pySplitAux : List Char → List Char → List String
  | [], acc => if acc.isEmpty then [] else [⟨acc.reverse⟩]
  | c :: rest, acc =>
      if pyIsSpace c then
        if acc.isEmpty then pySplitAux rest [] else ⟨acc.reverse⟩ :: pySplitAux rest []
      else pySplitAux rest (c :: acc)

def pySplit (s : String) : List String := pySplitAux s.data []

/-- Numeric value of a character relative to `'0'`. -/
def digitVal (c : Char) : Nat := c.toNat - 48

def decDigit (c : Char) : Option Nat :=
  if c.isDigit then some (digitVal c) else none

def hexDigit (c : Char) : Option Nat :=
  if c.isDigit then some (digitVal c)
  else if 'a' ≤ c && c ≤ 'f' then some (digitVal c - 39)
  else if 'A' ≤ c && c ≤ 'F' then some (digitVal c - 7)
  else none

def octDigit (c : Char) : Option Nat :=
  if '0' ≤ c && c ≤ '7' then some (digitVal c) else none

def digitsNatAux (base : Nat) (digit : Char → Option Nat) : List Char → Nat → Option Nat
  | [], acc => some acc
  | c :: rest, acc =>
      match digit c with
      | some d => digitsNatAux base digit rest (acc * base + d)
      | none => none

/-- A non-empty digit run read in the given base. -/
def digitsNat (base : Nat) (digit : Char → Option Nat) : List Char → Option Nat
  | [] => none
  | l => digitsNatAux base digit l 0

def decNat : List Char → Option Nat := digitsNat 10 decDigit

/-- Hex digits, allowing the `0x`/`0X` prefix that Python's
`int(s, 16)` accepts. -/
def hexNat (l : List Char) : Option Nat :=
  match l with
  | '0' :: x :: rest =>
      if x = 'x' || x = 'X' then digitsNat 16 hexDigit rest
      else digitsNat 16 hexDigit ('0' :: x :: rest)
  | _ => digitsNat 16 hexDigit l

/-- Whitespace-stripped, optionally signed digit run. -/
def parseSigned (digits : List Char → Option Nat) (s : String) : Option Int :=
  match pyStripL s.data with
  | '+' :: rest => (digits rest).map Int.ofNat
  | '-' :: rest => (digits rest).map (fun n => -(n : Int))
  | l => (digits l).map Int.ofNat

/-- Python `int(s)` (base 10); `none` is the `ValueError`. -/
def pyIntDec : String → Option Int := parseSigned decNat

/-- Python `int(s, 16)`; `none` is the `ValueError`. -/
def pyIntHex : String → Option Int := parseSigned hexNat

/-- `needle` is a prefix of `hay`. -/
def startsWithL : List Char → List Char → Bool
  | [], _ => true
  | _ :: _, [] => false
  | a :: as, b :: bs => a = b && startsWithL as bs

/-- Python `needle in hay` on strings (substring containment). -/
def isInfixL (needle : List Char) : List Char → Bool
  | [] => needle.isEmpty
  | c :: rest => startsWithL needle (c :: rest) || isInfixL needle rest

def pyIn (needle hay : String) : Bool := isInfixL needle.data hay.data

def countCharL (c : Char) (l : List Char) : Nat := (l.filter (· = c)).length

/-! ## IRC utilities (chanop.py `is_hostmask` … `hex_to_ip`) -/

/-- chanop.py `is_hostmask`: `n = s.find('!')`, `m = s.find('@')`,
`n < m-1 and n >= 1 and m >= 3 and len(s) > m+1`. -/
def is_hostmask (s : String) : Bool :=
  let n := pyFind s '!'
  let m := pyFind s '@'
  decide (n < m - 1 ∧ 1 ≤ n ∧ 3 ≤ m ∧ m + 1 < (s.length : Int))

/-- Python `s.split(c)` for a single separator character (keeps empty
pieces, as `str.split` with an explicit separator does). -/
def splitOnCharAux (c : Char) : List Char → List Char → List (List Char)
  | [], acc => [acc.reverse]
  | x :: rest, acc =>
      if x = c then acc.reverse :: splitOnCharAux c rest []
      else splitOnCharAux c rest (x :: acc)

def splitOnChar (c : Char) (l : List Char) : List (List Char) :=
  splitOnCharAux c l []

/-- One dotted component as C `inet_aton` parses it: hex after `0x`/`0X`,
octal after a leading `0`, decimal otherwise; no sign. -/
def atonPart : List Char → Option Nat
  | [] => none
  | ['0'] => some 0
  | '0' :: x :: rest =>
      if x = 'x' || x = 'X' then digitsNat 16 hexDigit rest
      else digitsNat 8 octDigit (x :: rest)
  | l => decNat l

/-- chanop.py `is_ip`: exactly three dots and `socket.inet_aton` accepts the
string (with four components each must be ≤ 255). `inet_aton`'s tolerance
of trailing whitespace is irrelevant for the dotted-decimal strings this
script feeds it. -/
def is_ip (s : String) : Bool :=
  if countCharL '.' s.data ≠ 3 then false
  else (splitOnChar '.' s.data).all (fun part =>
    match atonPart part with
    | some v => v ≤ 255
    | none => false)

def labelChars (l : List Char) : Bool :=
  !l.isEmpty && l.all (fun c => c.isAlpha || c.isDigit || c = '-')

/-- `_valid_label.search(label)` for the anchored `^[a-z\d\-]+$` pattern
(`re.I`): the whole label, or — because `$` also matches just before a
single final newline — the label minus one trailing newline. -/
def validLabelSearch (l : List Char) : Bool :=
  labelChars l || (l.getLast? = some '\n' && labelChars l.dropLast)

/-- chanop.py `is_hostname`. -/
def is_hostname (s : String) : Bool :=
  if s.isEmpty || s.length > 255 then false
  else
    let t := if s.data.getLast? = some '.' then s.data.dropLast else s.data
    (splitOnChar '.' t).all (fun l =>
      !(l.isEmpty || l.length > 63 || l.head? = some '-' || l.getLast? = some '-'
        || !validLabelSearch l))

/-- chanop.py `get_nick`: text before the `!` (a leading `:` stripped);
`''` when `!` is absent or at index 0. -/
def get_nick (s : String) : String :=
  let n := pyFind s '!'
  if n < 1 then ""
  else if s.data.head? = some ':' then ⟨sliceL s.data 1 n.toNat⟩
  else ⟨s.data.take n.toNat⟩

/-- chanop.py `get_user(s, trim)`: text between `!` and `@` under
`n > 0 and m > 2 and m > n`, else `''`. `none` models the `IndexError` that
`s[0]` raises in the trim branch when the extracted user part is empty. -/
def get_user (s : String) (trim : Bool) : Option String :=
  let n := pyFind s '!'
  let m := pyFind s '@'
  if 0 < n ∧ 2 < m ∧ n < m then
    let u := sliceL s.data (n.toNat + 1) m.toNat
    if trim then
      match u.head? with
      | none => none
      | some c =>
          if c = '~' then some ⟨u.drop 1⟩
          else if u.take 2 = ['i', '='] ∨ u.take 2 = ['n', '='] then some ⟨u.drop 2⟩
          else some ⟨u⟩
    else some ⟨u⟩
  else some ""

/-- chanop.py `get_host`: text after the `@` (cut at a following space);
`''` when `@` is absent or before index 3. -/
def get_host (s : String) : String :=
  let n := pyFind s '@'
  if n < 3 then ""
  else
    let m := pyFind s ' '
    if 0 < m ∧ n < m then ⟨sliceL s.data (n.toNat + 1) m.toNat⟩
    else ⟨s.data.drop (n.toNat + 1)⟩

/-- chanop.py `hex_to_ip`: `'7f000001' => '127.0.0.1'`; any other length or
a failing `int(_, 16)` yields `''` (the bare `except`). -/
def hex_to_ip (s : String) : String :=
  if s.length ≠ 8 then ""
  else
    match pyIntHex ⟨sliceL s.data 0 2⟩, pyIntHex ⟨sliceL s.data 2 4⟩,
          pyIntHex ⟨sliceL s.data 4 6⟩, pyIntHex ⟨sliceL s.data 6 8⟩ with
    | some a, some b, some c, some d =>
        toString a ++ "." ++ toString b ++ "." ++ toString c ++ "." ++ toString d
    | _, _, _, _ => ""

/-- Inner loop of the wildcard matcher: match the pattern against a string
whose head is `c` and whose tail is handled by `onRest` (the matcher for
the remaining string). -/
def globP (c : Char) (onRest : List Char → Bool) : List Char → Bool
  | [] => false
  | '*' :: ps => globP c onRest ps || (c ≠ '\n' && onRest ('*' :: ps))
  | '?' :: ps => c ≠ '\n' && onRest ps
  | x :: ps => x.toLower = c.toLower && onRest ps

/-- Wildcard matcher by structural recursion on the string: a drained
string is matched exactly by a run of `*`s. -/
def globS : List Char → List Char → Bool
  | [], p => p.all (fun x => x = '*')
  | c :: s, p => globP c (globS s) p

/-- The matcher `pattern_match` compiles a `*`/`?` wildcard pattern into
(`'^' + … + '$'`, `re.I`): `*` ↦ `.*` (a run of non-newline characters),
`?` ↦ `.` (one non-newline character), everything else a case-insensitive
literal. -/
def globMatch (p s : List Char) : Bool := globS s p

/-- `regexp.search` on the anchored pattern: the whole string matches, or —
`$` again — the string minus a single trailing newline. -/
def reSearch (p : List Char) (s : List Char) : Bool :=
  globMatch p s || (s.getLast? = some '\n' && globMatch p s.dropLast)

/-- chanop.py `pattern_match` on a list of strings. -/
def pattern_match (pattern : String) (strings : List String) : List String :=
  strings.filter (fun s => reSearch pattern.data s.data)

/-- chanop.py `hostmask_pattern_match`: only hostmask-shaped patterns are
ever matched; everything else returns `[]`. -/
def hostmask_pattern_match (pattern : String) (strings : List String) : List String :=
  if is_hostmask pattern then pattern_match pattern strings else []

/-! ## Mask records and mask lists -/

/-- A Python value held in a `MaskObject` slot: `None`, an `int` or a `str`
(the `date` slot holds an `int` after `__init__` but keeps whatever raw
value an in-place update assigned). -/
inductive PyV where
  | none
  | int (n : Int)
  | str (s : String)
deriving DecidableEq

/-- Python truthiness of such a value. -/
def PyV.truthy : PyV → Bool
  | .none => false
  | .int n => n ≠ 0
  | .str s => s ≠ ""

/-- Python `int(v)` on such a value (`Option.none` = `ValueError` /
`TypeError`). -/
def PyV.toInt : PyV → Option Int
  | .none => Option.none
  | .int n => some n
  | .str s => pyIntDec s

/-- chanop.py `MaskObject` (slots `mask, hostmask, operator, date,
expires`). -/
structure MaskObject where
  mask : String
  hostmask : PyV
  operator : PyV
  date : PyV
  expires : PyV
deriving DecidableEq

/-- The keyword arguments handed to `MaskCache.add` /
`MaskList.__setitem__`; `Option.none` = argument absent (treated exactly
like an explicit `None`, both being falsy). -/
structure MaskData where
  hostmask : Option PyV
  operator : Option PyV
  date : Option PyV
  expires : Option PyV
deriving DecidableEq

/-- `MaskObject.__init__` at time `t` (`now()`): a truthy `date` is passed
through `int(...)` — whose `ValueError` on a non-numeric string is
`Option.none` — otherwise `date` becomes `now()`. -/
def MaskObject.init (mask : String) (d : MaskData) (t : Int) : Option MaskObject :=
  let dv := d.date.getD .none
  let dateVal : Option Int := if dv.truthy then dv.toInt else some t
  match dateVal with
  | Option.none => Option.none
  | some n =>
      some ⟨mask, d.hostmask.getD .none, d.operator.getD .none, .int n, d.expires.getD .none⟩

/-- One field of the `MaskList.__setitem__` update loop: a present truthy
value overwrites the slot; an absent or falsy one keeps it. -/
def mergeField (old : PyV) : Option PyV → PyV
  | Option.none => old
  | some v => if v.truthy then v else old

def mergeRecord (r : MaskObject) (d : MaskData) : MaskObject :=
  ⟨r.mask, mergeField r.hostmask d.hostmask, mergeField r.operator d.operator,
   mergeField r.date d.date, mergeField r.expires d.expires⟩

/-- chanop.py `MaskList`: a case-insensitive dict mask → `MaskObject` plus
the `fetch_time` attribute (0 from `__init__`). -/
structure MaskList where
  entries : List (String × MaskObject)
  fetch_time : Int
deriving DecidableEq

def MaskList.empty : MaskList := ⟨[], 0⟩

/-- `MaskList.__setitem__` at time `t`: an existing mask is updated in
place field by field; a new mask gets a fresh `MaskObject` (a `ValueError`
raised by `MaskObject.__init__` aborts the insert). -/
def MaskList.setMask (ml : MaskList) (t : Int) (mask : String) (d : MaskData) : MaskList :=
  match lookupCI mask ml.entries with
  | some r => ⟨setCI mask (mergeRecord r d) ml.entries, ml.fetch_time⟩
  | Option.none =>
      match MaskObject.init mask d t with
      | some obj => ⟨ml.entries ++ [(mask, obj)], ml.fetch_time⟩
      | Option.none => ml

/-- `MaskList.searchByHostmask`: the stored mask keys, in order, whose
pattern matches the hostmask. -/
def MaskList.searchByHostmask (ml : MaskList) (hostmask : String) : List String :=
  (ml.entries.map Prod.fst).filter
    (fun mask => !(hostmask_pattern_match mask [hostmask]).isEmpty)

/-- `MaskList.searchByPattern`. -/
def MaskList.searchByPattern (ml : MaskList) (pattern : String) : List String :=
  pattern_match pattern (ml.entries.map Prod.fst)

/-! ## The mask caches and the fetch FIFO -/

/-- Case-insensitive fold of a `(server, channel)` key
(`caseInsensibleKey` is applied to every component of a tuple key). -/
def foldKey (k : String × String) : String × String := (foldK k.1, foldK k.2)

def lookupCIK (k : String × String) :
    List ((String × String) × α) → Option α
  | [] => Option.none
  | (k', v) :: rest => if foldKey k' = foldKey k then some v else lookupCIK k rest

def setCIK (k : String × String) (v : α) :
    List ((String × String) × α) → List ((String × String) × α)
  | [] => [(k, v)]
  | (k', v') :: rest =>
      if foldKey k' = foldKey k then (k', v) :: rest else (k', v') :: setCIK k v rest

def updateCIK (k : String × String) (f : α → α) :
    List ((String × String) × α) → List ((String × String) × α)
  | [] => []
  | (k', v') :: rest =>
      if foldKey k' = foldKey k then (k', f v') :: rest else (k', v') :: updateCIK k f rest

/-- The WeeChat facts `MaskCache.fetch` consults. -/
structure FetchEnv where
  supported : String → String → Bool
  serverBuffer : String → Bool
  isChannel : String → Bool

/-- The module-level mask-cache state: the two `MaskCache` instances
(`banlist`, mode `'b'`, and `mutelist`, mode `'q'`), the class-shared fetch
FIFO `hook_queue`, whether the shared `irc_in_367`/`irc_in_368` hooks are
installed (`hook_fetch` non-empty), and the observable WeeChat traffic. -/
structure FetchState where
  ban : List ((String × String) × MaskList)
  mute : List ((String × String) × MaskList)
  hookQueue : List (String × String × String)
  hookFetch : Bool
  issued : List (String × String)
  infos : Nat
  errors : Nat
deriving DecidableEq

/-- `maskModes[mode]`: `true` = `banlist`, `false` = `mutelist`;
`Option.none` is the `KeyError` for any other mode. -/
def maskModes (mode : String) : Option Bool :=
  if mode = "b" then some true else if mode = "q" then some false else Option.none

def FetchState.cacheOf (st : FetchState) (isBan : Bool) :
    List ((String × String) × MaskList) :=
  if isBan then st.ban else st.mute

def FetchState.withCache (st : FetchState) (isBan : Bool)
    (c : List ((String × String) × MaskList)) : FetchState :=
  if isBan then { st with ban := c } else { st with mute := c }

/-- `MaskCache.add(server, channel, mask, **kwargs)` on the instance picked
by `isBan`, at time `t`: create the per-channel list if absent
(`initList`), then `self[key][mask] = kwargs`. -/
def MaskCache.add (isBan : Bool) (t : Int) (server channel mask : String)
    (d : MaskData) (st : FetchState) : FetchState :=
  let cache := st.cacheOf isBan
  let cache :=
    if (lookupCIK (server, channel) cache).isNone
    then setCIK (server, channel) MaskList.empty cache
    else cache
  st.withCache isBan (updateCIK (server, channel) (fun ml => ml.setMask t mask d) cache)

/-- `MaskCache.fetch(server, channel)` on the instance picked by `isBan`,
at time `t` (`now()`): skip when the mode is unsupported, when the last
fetch of this key finished less than 60 s ago, when server/channel are
invalid, or when the exact key is already in the FIFO; otherwise append to
the FIFO, make sure the shared hooks are installed, announce, and issue
`/wait <fifo-depth> /mode <channel> <mode>`. -/
def MaskCache.fetch (env : FetchEnv) (isBan : Bool) (t : Int)
    (server channel : String) (st : FetchState) : FetchState :=
  let mode := if isBan then "b" else "q"
  if !env.supported server mode then st
  else
    let skip :=
      match lookupCIK (server, channel) (st.cacheOf isBan) with
      | some ml => decide (t - ml.fetch_time < 60)
      | Option.none => false
    if skip then st
    else if !env.serverBuffer server || !env.isChannel channel then st
    else if (server, channel, mode) ∈ st.hookQueue then st
    else
      let hq := st.hookQueue ++ [(server, channel, mode)]
      { st with hookQueue := hq, hookFetch := true,
                issued := st.issued ++
                  [(server, "/wait " ++ toString hq.length ++ " /mode " ++ channel ++ " " ++ mode)],
                infos := st.infos + 1 }

/-- `masklist_add_cb(data, modifier, modifier_data, string)`: the channel,
mask, operator and date are the last four whitespace-separated tokens of
the raw 367 line, `modifier_data` is the server. A line with fewer than
four tokens (`ValueError`) or an empty FIFO (`IndexError`) raises before
any mutation. A mask whose `(server, channel)` equals the FIFO head's is
added to that mode's cache; otherwise an error is reported and nothing is
added. -/
def masklist_add_cb (t : Int) (server : String) (string : String)
    (st : FetchState) : FetchState :=
  let toks := pySplit string
  if toks.length < 4 then st
  else
    match toks.drop (toks.length - 4) with
    | [channel, banmask, op, date] =>
        match st.hookQueue with
        | [] => st
        | (serv, chan, mode) :: _ =>
            if serv = server ∧ chan = channel then
              match maskModes mode with
              | some isBan =>
                  MaskCache.add isBan t server channel banmask
                    ⟨Option.none, some (.str op), some (.str date), Option.none⟩ st
              | Option.none => st
            else { st with errors := st.errors + 1 }
    | _ => st

/-- `masklist_end_cb`: pop the FIFO head; create the completed key's (still
empty) list if absent, else print a summary line; uninstall the shared
hooks when the FIFO drained. `fetch_time` is not touched anywhere. The
tab-completion continuation (`waiting_for_completion`) is outside the
modelled core and permanently `None` here. -/
def masklist_end_cb (st : FetchState) : FetchState :=
  match st.hookQueue with
  | [] => st
  | (server, channel, mode) :: restQ =>
      let st := { st with hookQueue := restQ }
      match maskModes mode with
      | Option.none => st
      | some isBan =>
          let cache := st.cacheOf isBan
          let st :=
            if (lookupCIK (server, channel) cache).isNone then
              st.withCache isBan (setCIK (server, channel) MaskList.empty cache)
            else { st with infos := st.infos + 1 }
          if st.hookQueue.isEmpty then { st with hookFetch := false } else st

/-! ## The user cache -/

/-- chanop.py `UserList`: the visible nick → hostmask entries plus the
`_temp_users` pending-removal map (nick → time marked). -/
structure UserList where
  users : List (String × String)
  temp : List (String × Int)
deriving DecidableEq

/-- `UserList.__setitem__`: store the hostmask and drop any pending-removal
marker ("in case if user did a cycle"). -/
def UserList.set (ul : UserList) (nick hostname : String) : UserList :=
  ⟨setCI nick hostname ul.users, eraseCI nick ul.temp⟩

/-- `UserList.remove` at time `t` (`now()`): only queue the nick for
deletion; the visible entry stays. -/
def UserList.remove (ul : UserList) (nick : String) (t : Int) : UserList :=
  ⟨ul.users, setCI nick t ul.temp⟩

/-- The `UserList.purge` loop over a snapshot of `_temp_users.items()`:
entries marked more than 3600 s ago are deleted from both maps (`KeyError`
on the visible map is caught). -/
def UserList.purgeAux (t : Int) : List (String × Int) → UserList → UserList
  | [], ul => ul
  | (nick, whenT) :: rest, ul =>
      if 3600 < t - whenT then
        UserList.purgeAux t rest ⟨eraseCI nick ul.users, eraseCI nick ul.temp⟩
      else UserList.purgeAux t rest ul

/-- `UserList.purge` at time `t` (`now()`). -/
def UserList.purge (ul : UserList) (t : Int) : UserList :=
  UserList.purgeAux t ul.temp ul

/-! ## The command queue -/

/-- The WeeChat fact `AddChannel.__call__` consults. -/
structure QEnv where
  isChannel : String → Bool

/-- A queued message: `Normal`, `WaitForOp` or `AddChannel`, carrying the
accumulated `wait` offset recorded at `queue()` time. -/
inductive QStep where
  | normal (cmd buffer : String) (wait : Nat)
  | waitForOp (cmd server channel nick buffer : String) (wait : Nat)
  | addChannel (server channel : String)
deriving DecidableEq

def QStep.isNormal : QStep → Bool
  | .normal _ _ _ => true
  | _ => false

/-- `Message.__call__`'s outgoing text: `/wait N cmd` for a non-zero
wait. -/
def msgText (cmd : String) (wait : Nat) : String :=
  if wait ≠ 0 then "/wait " ++ toString wait ++ " " ++ cmd else cmd

/-- The command-queue state: the pending `commands` and accumulated `wait`
of the module's single `CommandQueue`, the `hook_signal` (server pattern,
expected `MODE` data) and `hook_timeout` (`server.channel` data) globals,
the watchlist config, and the observable traffic. -/
structure QState where
  commands : List QStep
  wait : Nat
  hookSignal : Option (String × String)
  hookTimeout : Option String
  tracked : List (String × String)
  sent : List (String × String)
  errors : Nat
deriving DecidableEq

/-- `CommandQueue.queue(cmd, type, wait=1, ...)`: the step is packed with
the current accumulated wait, which then grows by this call's `wait`. -/
def CommandQueue.queue (st : QState) (mk : Nat → QStep) (wait : Nat) : QState :=
  { st with commands := st.commands ++ [mk st.wait], wait := st.wait + wait }

/-- One step invocation (`pack()`); the Bool is its return value, and
`False` interrupts the queue. `WaitForOp.__call__` replaces the two global
hooks with a fresh signal subscription — scoped to its server, expecting
`MODE <channel> +o <nick>` — and a fresh 60 s one-shot timer, then sends
its command. `AddChannel.__call__` only grows the watchlist. -/
def callStep (env : QEnv) (st : QState) : QStep → QState × Bool
  | .normal cmd buffer wait =>
      ({ st with sent := st.sent ++ [(buffer, msgText cmd wait)] }, true)
  | .waitForOp cmd server channel nick buffer wait =>
      ({ st with
          hookSignal := some (server, "MODE " ++ channel ++ " +o " ++ nick),
          hookTimeout := some (server ++ "." ++ channel),
          sent := st.sent ++ [(buffer, msgText cmd wait)] }, false)
  | .addChannel server channel =>
      if channel = "" || !env.isChannel channel then (st, true)
      else if st.tracked.any (fun p => p.1 = server && foldK p.2 = foldK channel) then (st, true)
      else ({ st with tracked := st.tracked ++ [(server, channel)] }, true)

/-- The `while self.commands:` loop of `CommandQueue.run`: pop the front
step, invoke it, stop on `False`; when the queue drains, reset `wait`. -/
def runLoop (env : QEnv) : List QStep → QState → QState
  | [], st => { st with wait := 0 }
  | p :: rest, st =>
      let r := callStep env { st with commands := rest } p
      if r.2 then runLoop env rest r.1 else r.1

/-- `CommandQueue.run` behind the `safe_check` decorator: more than 20
pending commands reports once and clears everything before any step
executes. -/
def CommandQueue.run (env : QEnv) (st : QState) : QState :=
  if st.commands.length > 20 then
    { st with commands := [], wait := 0, errors := st.errors + 1 }
  else runLoop env st.commands st

/-- `CommandQueue.clear`. -/
def CommandQueue.clear (st : QState) : QState :=
  { st with commands := [], wait := 0 }

/-- The test in `queue_continue_cb`: the tail of `signal_data` after its
first space, stripped, equals the expected data. A space-free
`signal_data` raises `IndexError` before any state change, so it simply
never matches. -/
def confirmMatches (signalData expected : String) : Bool :=
  match afterFirstSpaceL signalData.data with
  | some tail => pyStripL tail = expected.data
  | Option.none => false

/-- WeeChat delivers an `<server>,irc_in2_MODE` signal to a hook whose
server part is the literal server or the `*` wildcard. -/
def signalMatch (pat actual : String) : Bool := pat = "*" || pat = actual

/-- An `irc_in2_MODE` signal from `evServer` with raw IRC line `evData`:
`queue_continue_cb` is registered only while `hook_signal` is installed; on
a matching event it unhooks both hooks, resets the globals and re-runs the
queue; any other event leaves everything untouched. -/
def signalEvent (env : QEnv) (evServer evData : String) (st : QState) : QState :=
  match st.hookSignal with
  | Option.none => st
  | some (pat, dat) =>
      if signalMatch pat evServer && confirmMatches evData dat then
        CommandQueue.run env { st with hookSignal := Option.none, hookTimeout := Option.none }
      else st

/-- The 60 s timer firing (`queue_timeout_cb`): one error report, unhook
the signal subscription, clear the whole queue. The timer was one-shot, so
`hook_timeout` is gone afterwards and cannot fire again. -/
def timeoutEvent (st : QState) : QState :=
  match st.hookTimeout with
  | Option.none => st
  | some _ =>
      { st with hookTimeout := Option.none, hookSignal := Option.none,
                commands := [], wait := 0, errors := st.errors + 1 }

/-! ## The ban-mask builder -/

/-- `Ban.make_banmask` for a given option list (`self.banmask`);
`Option.none` models the `IndexError` that `get_user(..., trim=True)`
raises in the webchat branch on an empty user part. -/
def make_banmask (options : List String) (hostmask : String) : Option String :=
  if "exact" ∈ options then some hostmask
  else if "webchat" ∈ options then
    match get_user hostmask true with
    | Option.none => Option.none
    | some user =>
        let decoded_ip := hex_to_ip user
        let host := get_host hostmask
        if !is_hostname host && is_ip decoded_ip && !pyIn decoded_ip host then
          some ("*!" ++ (get_user hostmask false).getD "" ++ "@*")
        else some ("*!*@" ++ host)
  else
    let nick := if "nick" ∈ options then get_nick hostmask else "*"
    let user := if "user" ∈ options then (get_user hostmask false).getD "" else "*"
    let host := if "host" ∈ options then get_host hostmask else "*"
    some (nick ++ "!" ++ user ++ "@" ++ host)

/-! ## Concrete fixtures used to exercise the model -/

/-- A WeeChat environment where every channel name is valid. -/
def qenvAll : QEnv := ⟨fun _ => true⟩

/-- A fetch environment where the mode is supported and server/channel are
valid. -/
def fenvAll : FetchEnv := ⟨fun _ _ => true, fun _ => true, fun _ => true⟩

/-- The initial (module-load) mask-cache state. -/
def fs0 : FetchState := ⟨[], [], [], false, [], 0, 0⟩

/-- The initial command-queue state. -/
def qs0 : QState := ⟨[], 0, Option.none, Option.none, [], [], 0⟩

/-- 21 `Normal` steps enqueued with the default `wait=1`, nothing run. -/
def qs21 : QState :=
  (List.range 21).foldl
    (fun st i => CommandQueue.queue st (fun w => QStep.normal ("cmd" ++ toString i) "buf" w) 1)
    qs0

/-- A queue holding a `WaitForOp` privilege request followed by one
`Normal` action, as a privileged command produces it. -/
def qsOp : QState :=
  ⟨[QStep.waitForOp "/msg chanserv op #chan me" "srv" "#chan" "me" "buf" 0,
    QStep.normal "/kick #chan bad" "buf" 1],
   0, Option.none, Option.none, [], [], 0⟩

/-- A mask-cache state with one in-flight ban fetch for `srv.#chan` and an
empty cached list for that key. -/
def fsC4 : FetchState :=
  ⟨[(("srv", "#chan"), MaskList.empty)], [], [("srv", "#chan", "b")], true, [], 0, 0⟩

/-- A stored mask record used to populate concrete `MaskList`s. -/
def mobj0 : MaskObject := ⟨"nick!*@*", .none, .none, .int 0, .none⟩

theorem lookupCI_congr (l : List (String × α)) (k k' : String)
    (h : foldK k = foldK k') : lookupCI k l = lookupCI k' l := by
  induction l with
  | nil => rfl
  | cons p rest ih => simp only [lookupCI, h, ih]

theorem lookupCI_setCI_self (l : List (String × α)) (k : String) (v : α) :
    lookupCI k (setCI k v l) = some v := by
  induction l with
  | nil => simp [setCI, lookupCI]
  | cons p rest ih =>
      by_cases h : foldK p.1 = foldK k
      · simp [setCI, lookupCI, h]
      · simp [setCI, lookupCI, h, ih]

theorem lookupCI_setCI_other (l : List (String × α)) (k k' : String) (v : α)
    (h : foldK k ≠ foldK k') : lookupCI k' (setCI k v l) = lookupCI k' l := by
  induction l with
  | nil => simp [setCI, lookupCI, h]
  | cons p rest ih =>
      by_cases hp : foldK p.1 = foldK k
      · have hp' : foldK p.1 ≠ foldK k' := by rw [hp]; exact h
        simp only [setCI, lookupCI, if_pos hp, hp, hp']
        simp only [if_neg h]
      · simp [setCI, lookupCI, hp, ih]

theorem lookupCI_eq_none (l : List (String × α)) (k : String)
    (h : ∀ p ∈ l, foldK p.1 ≠ foldK k) : lookupCI k l = none := by
  induction l with
  | nil => rfl
  | cons p rest ih =>
      simp only [lookupCI, if_neg (h p (List.mem_cons_self p rest))]
      exact ih (fun q hq => h q (List.mem_cons_of_mem p hq))

theorem keysNodup_cons {p : String × α} {rest : List (String × α)}
    (h : keysNodup (p :: rest)) :
    (∀ q ∈ rest, foldK q.1 ≠ foldK p.1) ∧ keysNodup rest := by
  simp only [keysNodup, List.map_cons, List.nodup_cons] at h
  refine ⟨fun q hq hc => h.1 ?_, h.2⟩
  exact (List.mem_map.mpr ⟨q, hq, hc⟩)

theorem lookupCI_eraseCI_self (l : List (String × α)) (k : String)
    (hnd : keysNodup l) : lookupCI k (eraseCI k l) = none := by
  induction l with
  | nil => rfl
  | cons p rest ih =>
      obtain ⟨hrest, hnd'⟩ := keysNodup_cons hnd
      by_cases h : foldK p.1 = foldK k
      · simp only [eraseCI, h, if_pos rfl]
        exact lookupCI_eq_none rest k (fun q hq hc => hrest q hq (hc.trans h.symm))
      · simp only [eraseCI, if_neg h, lookupCI]
        exact ih hnd'

theorem eraseCI_congr (l : List (String × α)) (k k' : String)
    (h : foldK k = foldK k') : eraseCI k l = eraseCI k' l := by
  induction l with
  | nil => rfl
  | cons p rest ih => simp only [eraseCI, h, ih]

theorem lookupCI_eraseCI_other (l : List (String × α)) (k k' : String)
    (h : foldK k' ≠ foldK k) : lookupCI k (eraseCI k' l) = lookupCI k l := by
  induction l with
  | nil => rfl
  | cons p rest ih =>
      by_cases hp : foldK p.1 = foldK k'
      · have hpk : foldK p.1 ≠ foldK k := fun hc => h (hp ▸ hc)
        simp only [eraseCI, if_pos hp, lookupCI, if_neg hpk]
      · simp only [eraseCI, if_neg hp, lookupCI, ih]

theorem eraseCI_sublist (l : List (String × α)) (k : String) :
    (eraseCI k l).Sublist l := by
  induction l with
  | nil => simp [eraseCI]
  | cons p rest ih =>
      by_cases hp : foldK p.1 = foldK k
      · simp only [eraseCI, if_pos hp]
        exact List.sublist_cons_of_sublist p (List.Sublist.refl rest)
      · simp only [eraseCI, if_neg hp]
        exact List.Sublist.cons₂ p ih

theorem keysNodup_eraseCI (l : List (String × α)) (k : String)
    (h : keysNodup l) : keysNodup (eraseCI k l) :=
  List.Nodup.sublist (List.Sublist.map _ (eraseCI_sublist l k)) h

theorem setCI_fold_mem (l : List (String × α)) (k : String) (v : α) (x : String)
    (hx : x ∈ (setCI k v l).map (fun p => foldK p.1)) :
    x ∈ l.map (fun p => foldK p.1) ∨ x = foldK k := by
  induction l with
  | nil => simpa [setCI] using hx
  | cons p rest ih =>
      by_cases hp : foldK p.1 = foldK k
      · simp only [setCI, if_pos hp, List.map_cons, List.mem_cons] at hx ⊢
        tauto
      · simp only [setCI, if_neg hp, List.map_cons, List.mem_cons] at hx ⊢
        rcases hx with h1 | h2
        · exact Or.inl (Or.inl h1)
        · rcases ih h2 with h3 | h4
          · exact Or.inl (Or.inr h3)
          · exact Or.inr h4

theorem keysNodup_setCI (l : List (String × α)) (k : String) (v : α)
    (h : keysNodup l) : keysNodup (setCI k v l) := by
  induction l with
  | nil => simp [setCI, keysNodup]
  | cons p rest ih =>
      obtain ⟨hrest, hnd'⟩ := keysNodup_cons h
      by_cases hp : foldK p.1 = foldK k
      · simp only [setCI, if_pos hp]
        simpa [keysNodup] using h
      · simp only [setCI, if_neg hp, keysNodup, List.map_cons, List.nodup_cons]
        constructor
        · intro hc
          rcases setCI_fold_mem rest k v _ hc with h1 | h2
          · obtain ⟨q, hq, hfq⟩ := List.mem_map.mp h1
            exact hrest q hq hfq
          · exact hp h2
        · exact ih hnd'

theorem lookupCI_append_right (l : List (String × α)) (k : String) (v : α)
    (h : lookupCI k l = Option.none) : lookupCI k (l ++ [(k, v)]) = some v := by
  induction l with
  | nil => simp [lookupCI]
  | cons p rest ih =>
      by_cases hp : foldK p.1 = foldK k
      · simp [lookupCI, hp] at h
      · simp only [lookupCI, if_neg hp] at h
        simpa [lookupCI, hp] using ih h

theorem setCI_append_right (l : List (String × α)) (k : String) (v w : α)
    (h : lookupCI k l = Option.none) : setCI k v (l ++ [(k, w)]) = l ++ [(k, v)] := by
  induction l with
  | nil => simp [setCI]
  | cons p rest ih =>
      by_cases hp : foldK p.1 = foldK k
      · simp [lookupCI, hp] at h
      · simp only [lookupCI, if_neg hp] at h
        simp [setCI, hp, ih h]

theorem countCI_append (k : String) (l₁ l₂ : List (String × α)) :
    countCI k (l₁ ++ l₂) = countCI k l₁ + countCI k l₂ := by
  simp [countCI, List.filter_append]

theorem countCI_of_lookup_none (l : List (String × α)) (k : String)
    (h : lookupCI k l = Option.none) : countCI k l = 0 := by
  induction l with
  | nil => rfl
  | cons p rest ih =>
      by_cases hp : foldK p.1 = foldK k
      · simp [lookupCI, hp] at h
      · simp only [lookupCI, if_neg hp] at h
        simpa [countCI, List.filter, hp] using ih h

theorem countCI_singleton_self (k : String) (v : α) : countCI k [(k, v)] = 1 := by
  simp [countCI, List.filter]

/-- `List.any` over a pending-removal map with distinct folded keys is the
predicate evaluated at the (unique) looked-up value. -/
theorem any_eq_lookupCI (l : List (String × Int)) (k : String) (c : Int → Bool)
    (h : keysNodup l) :
    (l.any (fun p => decide (foldK p.1 = foldK k) && c p.2)) =
      (match lookupCI k l with
       | some w => c w
       | Option.none => false) := by
  induction l with
  | nil => rfl
  | cons p rest ih =>
      obtain ⟨hrest, hnd'⟩ := keysNodup_cons h
      by_cases hp : foldK p.1 = foldK k
      · have hnone : lookupCI k rest = Option.none :=
          lookupCI_eq_none rest k (fun q hq hc => hrest q hq (by rw [hc, hp]))
        have hfalse : rest.any (fun p => decide (foldK p.1 = foldK k) && c p.2) = false := by
          rw [ih hnd', hnone]
        simp [List.any_cons, lookupCI, hp, hfalse]
      · simp [List.any_cons, lookupCI, hp, ih hnd']

/-- `any_eq_lookupCI` specialised to the expiry predicate of `purge`. -/
theorem any_expired_eq_lookupCI (l : List (String × Int)) (k : String) (t : Int)
    (h : keysNodup l) :
    (l.any (fun p => decide (foldK p.1 = foldK k) && decide (3600 < t - p.2))) =
      (match lookupCI k l with
       | some w => decide (3600 < t - w)
       | Option.none => false) :=
  any_eq_lookupCI l k (fun w => decide (3600 < t - w)) h

theorem purgeAux_users_lookup (t : Int) (le : List (String × Int)) (ul : UserList)
    (k : String) (hu : keysNodup ul.users) :
    lookupCI k (UserList.purgeAux t le ul).users =
      (if le.any (fun p => decide (foldK p.1 = foldK k) && decide (3600 < t - p.2))
       then Option.none else lookupCI k ul.users) := by
  induction le generalizing ul with
  | nil => simp [UserList.purgeAux]
  | cons p rest ih =>
      by_cases hexp : 3600 < t - p.2
      · rw [show UserList.purgeAux t (p :: rest) ul
              = UserList.purgeAux t rest ⟨eraseCI p.1 ul.users, eraseCI p.1 ul.temp⟩ by
            simp [UserList.purgeAux, hexp]]
        rw [ih ⟨eraseCI p.1 ul.users, eraseCI p.1 ul.temp⟩ (keysNodup_eraseCI _ _ hu)]
        by_cases hk : foldK p.1 = foldK k
        · have hnone : lookupCI k (eraseCI p.1 ul.users) = Option.none := by
            rw [eraseCI_congr ul.users p.1 k hk]
            exact lookupCI_eraseCI_self ul.users k hu
          simp only [List.any_cons, hk, hexp, decide_eq_true_eq]
          by_cases hrest : rest.any (fun p => decide (foldK p.1 = foldK k) && decide (3600 < t - p.2))
          · simp [hrest]
          · simp only [Bool.not_eq_true] at hrest
            simp [hrest, hnone]
        · have hsame : lookupCI k (eraseCI p.1 ul.users) = lookupCI k ul.users :=
            lookupCI_eraseCI_other ul.users k p.1 hk
          have hdk : decide (foldK p.1 = foldK k) = false := by simp [hk]
          rw [hsame, List.any_cons, hdk, Bool.false_and, Bool.false_or]
      · rw [show UserList.purgeAux t (p :: rest) ul = UserList.purgeAux t rest ul by
            simp [UserList.purgeAux, hexp]]
        rw [ih ul hu]
        have hde : decide (3600 < t - p.2) = false := by simp [hexp]
        rw [List.any_cons, hde, Bool.and_false, Bool.false_or]

theorem purgeAux_temp_lookup (t : Int) (le : List (String × Int)) (ul : UserList)
    (k : String) (ht : keysNodup ul.temp) :
    lookupCI k (UserList.purgeAux t le ul).temp =
      (if le.any (fun p => decide (foldK p.1 = foldK k) && decide (3600 < t - p.2))
       then Option.none else lookupCI k ul.temp) := by
  induction le generalizing ul with
  | nil => simp [UserList.purgeAux]
  | cons p rest ih =>
      by_cases hexp : 3600 < t - p.2
      · rw [show UserList.purgeAux t (p :: rest) ul
              = UserList.purgeAux t rest ⟨eraseCI p.1 ul.users, eraseCI p.1 ul.temp⟩ by
            simp [UserList.purgeAux, hexp]]
        rw [ih ⟨eraseCI p.1 ul.users, eraseCI p.1 ul.temp⟩ (keysNodup_eraseCI _ _ ht)]
        by_cases hk : foldK p.1 = foldK k
        · have hnone : lookupCI k (eraseCI p.1 ul.temp) = Option.none := by
            rw [eraseCI_congr ul.temp p.1 k hk]
            exact lookupCI_eraseCI_self ul.temp k ht
          simp only [List.any_cons, hk, hexp, decide_eq_true_eq]
          by_cases hrest : rest.any (fun p => decide (foldK p.1 = foldK k) && decide (3600 < t - p.2))
          · simp [hrest]
          · simp only [Bool.not_eq_true] at hrest
            simp [hrest, hnone]
        · have hsame : lookupCI k (eraseCI p.1 ul.temp) = lookupCI k ul.temp :=
            lookupCI_eraseCI_other ul.temp k p.1 hk
          have hdk : decide (foldK p.1 = foldK k) = false := by simp [hk]
          rw [hsame, List.any_cons, hdk, Bool.false_and, Bool.false_or]
      · rw [show UserList.purgeAux t (p :: rest) ul = UserList.purgeAux t rest ul by
            simp [UserList.purgeAux, hexp]]
        rw [ih ul ht]
        have hde : decide (3600 < t - p.2) = false := by simp [hexp]
        rw [List.any_cons, hde, Bool.and_false, Bool.false_or]

/-! ## Claim theorems -/

/-- C7: for every cache keyed case-insensitively, inserting a value under
key `"Alice"` and then looking up `"alice"` or `"ALICE"` returns the same
record, membership tests agree under any casing of a key, and deleting via
any casing removes the entry for all casings — lookups never depend on
literal case. Stated for any two respellings `k'`, `k''` of the inserted
key `k` over any dict state satisfying the unique-folded-keys invariant. -/
theorem C7_case_insensitive_cache {α : Type} (l : List (String × α))
    (k k' k'' : String) (v : α) (hnd : keysNodup l)
    (h' : foldK k = foldK k') (h'' : foldK k = foldK k'') :
    lookupCI k' (setCI k v l) = some v ∧
    lookupCI k'' (setCI k v l) = some v ∧
    containsCI k' l = containsCI k'' l ∧
    lookupCI k'' (eraseCI k' (setCI k v l)) = Option.none ∧
    containsCI k'' (eraseCI k' (setCI k v l)) = false := by
  have hself : lookupCI k (setCI k v l) = some v := lookupCI_setCI_self l k v
  have herase : lookupCI k'' (eraseCI k' (setCI k v l)) = Option.none := by
    rw [← eraseCI_congr (setCI k v l) k k' h', ← lookupCI_congr _ k k'' h'']
    exact lookupCI_eraseCI_self (setCI k v l) k (keysNodup_setCI l k v hnd)
  refine ⟨?_, ?_, ?_, herase, ?_⟩
  · rw [← lookupCI_congr _ k k' h']; exact hself
  · rw [← lookupCI_congr _ k k'' h'']; exact hself
  · unfold containsCI
    rw [← lookupCI_congr l k k' h', ← lookupCI_congr l k k'' h'']
  · unfold containsCI
    rw [herase]
    rfl

/-- C7 witness: the `"Alice"`/`"alice"`/`"ALICE"` instance over a dict that
already holds another user. -/
theorem C7_witness :
    lookupCI "alice" (setCI "Alice" 7 [("Bob", 1)]) = some 7 ∧
    lookupCI "ALICE" (setCI "Alice" 7 [("Bob", 1)]) = some 7 ∧
    containsCI "alice" [("Bob", (1 : Nat))] = containsCI "ALICE" [("Bob", 1)] ∧
    lookupCI "ALICE" (eraseCI "alice" (setCI "Alice" 7 [("Bob", 1)])) = Option.none ∧
    containsCI "ALICE" (eraseCI "alice" (setCI "Alice" 7 [("Bob", 1)])) = false :=
  C7_case_insensitive_cache [("Bob", 1)] "Alice" "alice" "ALICE" 7
    (by decide) (by decide) (by decide)

/-- C6: adding a fresh mask `m` with `{operator: "A", date: 100}` and then
adding `m` again with `{date: 200}` yields a single record with
`operator == "A"` and `date == 200` — the non-empty `date` overwrites, the
absent `operator`, `hostmask` and `expires` keep their prior values; and in
general a repeated add of an existing mask updates the stored record by
`mergeRecord`, overwriting exactly the present truthy fields. -/
theorem C6_mask_merge (ml : MaskList) (m : String) (t₁ t₂ : Int)
    (habs : lookupCI m ml.entries = Option.none) :
    (lookupCI m (((ml.setMask t₁ m ⟨Option.none, some (.str "A"), some (.int 100), Option.none⟩).setMask
        t₂ m ⟨Option.none, Option.none, some (.int 200), Option.none⟩).entries) =
      some ⟨m, .none, .str "A", .int 200, .none⟩ ∧
    countCI m (((ml.setMask t₁ m ⟨Option.none, some (.str "A"), some (.int 100), Option.none⟩).setMask
        t₂ m ⟨Option.none, Option.none, some (.int 200), Option.none⟩).entries) = 1) ∧
    (∀ (ml' : MaskList) (r : MaskObject) (d : MaskData),
      lookupCI m ml'.entries = some r →
      lookupCI m (ml'.setMask t₂ m d).entries = some (mergeRecord r d)) := by
  refine ⟨?_, fun ml' r d hr => ?_⟩
  case refine_2 =>
    simp only [MaskList.setMask, hr]
    exact lookupCI_setCI_self ml'.entries m (mergeRecord r d)
  have h1 : ml.setMask t₁ m ⟨Option.none, some (.str "A"), some (.int 100), Option.none⟩
      = ⟨ml.entries ++ [(m, ⟨m, .none, .str "A", .int 100, .none⟩)], ml.fetch_time⟩ := by
    simp [MaskList.setMask, habs, MaskObject.init, PyV.truthy, PyV.toInt]
  rw [h1]
  have h2 : lookupCI m (ml.entries ++ [(m, (⟨m, .none, .str "A", .int 100, .none⟩ : MaskObject))])
      = some ⟨m, .none, .str "A", .int 100, .none⟩ :=
    lookupCI_append_right ml.entries m _ habs
  have h3 : (MaskList.setMask
        ⟨ml.entries ++ [(m, ⟨m, .none, .str "A", .int 100, .none⟩)], ml.fetch_time⟩
        t₂ m ⟨Option.none, Option.none, some (.int 200), Option.none⟩).entries
      = ml.entries ++ [(m, ⟨m, .none, .str "A", .int 200, .none⟩)] := by
    simp only [MaskList.setMask, h2]
    have : mergeRecord ⟨m, .none, .str "A", .int 100, .none⟩
        ⟨Option.none, Option.none, some (.int 200), Option.none⟩
        = ⟨m, .none, .str "A", .int 200, .none⟩ := by
      simp [mergeRecord, mergeField, PyV.truthy]
    rw [this]
    exact setCI_append_right ml.entries m _ _ habs
  rw [h3]
  constructor
  · exact lookupCI_append_right ml.entries m _ habs
  · rw [countCI_append, countCI_of_lookup_none ml.entries m habs,
      countCI_singleton_self]

/-- C6 witness: the merge scenario run in a list that already caches an
unrelated mask. -/
theorem C6_witness :
    lookupCI "bad!*@*"
      (((MaskList.mk [("nick!*@*", mobj0)] 0).setMask 50 "bad!*@*"
          ⟨Option.none, some (.str "A"), some (.int 100), Option.none⟩).setMask 60 "bad!*@*"
          ⟨Option.none, Option.none, some (.int 200), Option.none⟩).entries
      = some ⟨"bad!*@*", .none, .str "A", .int 200, .none⟩ ∧
    countCI "bad!*@*"
      (((MaskList.mk [("nick!*@*", mobj0)] 0).setMask 50 "bad!*@*"
          ⟨Option.none, some (.str "A"), some (.int 100), Option.none⟩).setMask 60 "bad!*@*"
          ⟨Option.none, Option.none, some (.int 200), Option.none⟩).entries = 1 ∧
    lookupCI "bad!*@*"
      ((MaskList.mk [("bad!*@*", mobj0)] 0).setMask 60 "bad!*@*"
          ⟨Option.none, some (.str "B"), Option.none, Option.none⟩).entries
      = some (mergeRecord mobj0 ⟨Option.none, some (.str "B"), Option.none, Option.none⟩) :=
  have h := C6_mask_merge (MaskList.mk [("nick!*@*", mobj0)] 0) "bad!*@*" 50 60 (by decide)
  ⟨h.1.1, h.1.2,
   h.2 (MaskList.mk [("bad!*@*", mobj0)] 0) mobj0
     ⟨Option.none, some (.str "B"), Option.none, Option.none⟩ (by decide)⟩

/-- C5: `onPart`/`onQuit` (`UserList.remove`) marks a nick pending-removal
with the current time and keeps it visible; re-adding the nick clears the
marker; `purge` deletes exactly the pending-removal entries marked more
than an hour ago; and a nick that parted and rejoined with a new hostmask
is visible with the new hostmask and survives `purge`. -/
theorem C5_user_pending_removal (ul : UserList) (nick newHost : String)
    (t₀ tP : Int) (k : String)
    (hu : keysNodup ul.users) (ht : keysNodup ul.temp) :
    ((ul.remove nick t₀).users = ul.users ∧
     lookupCI nick (ul.remove nick t₀).temp = some t₀) ∧
    (lookupCI nick ((ul.remove nick t₀).set nick newHost).users = some newHost ∧
     lookupCI nick ((ul.remove nick t₀).set nick newHost).temp = Option.none) ∧
    (lookupCI k (ul.purge tP).users =
       (match lookupCI k ul.temp with
        | some w => if 3600 < tP - w then Option.none else lookupCI k ul.users
        | Option.none => lookupCI k ul.users) ∧
     lookupCI k (ul.purge tP).temp =
       (match lookupCI k ul.temp with
        | some w => if 3600 < tP - w then Option.none else some w
        | Option.none => Option.none)) ∧
    lookupCI nick (((ul.remove nick t₀).set nick newHost).purge tP).users = some newHost := by
  have hremove : (ul.remove nick t₀) = ⟨ul.users, setCI nick t₀ ul.temp⟩ := rfl
  have hset : ((ul.remove nick t₀).set nick newHost)
      = ⟨setCI nick newHost ul.users, eraseCI nick (setCI nick t₀ ul.temp)⟩ := rfl
  refine ⟨⟨rfl, lookupCI_setCI_self ul.temp nick t₀⟩, ⟨?_, ?_⟩, ⟨?_, ?_⟩, ?_⟩
  · rw [hset]
    exact lookupCI_setCI_self ul.users nick newHost
  · rw [hset]
    exact lookupCI_eraseCI_self _ nick (keysNodup_setCI ul.temp nick t₀ ht)
  · have h3 := purgeAux_users_lookup tP ul.temp ul k hu
    rw [any_expired_eq_lookupCI ul.temp k tP ht] at h3
    unfold UserList.purge
    rw [h3]
    cases hlk : lookupCI k ul.temp with
    | none => simp
    | some wv =>
        by_cases hw : 3600 < tP - wv
        · simp [hw]
        · simp [hw]
  · have h3 := purgeAux_temp_lookup tP ul.temp ul k ht
    rw [any_expired_eq_lookupCI ul.temp k tP ht] at h3
    unfold UserList.purge
    rw [h3]
    cases hlk : lookupCI k ul.temp with
    | none => simp [hlk]
    | some wv =>
        by_cases hw : 3600 < tP - wv
        · simp [hlk, hw]
        · simp [hlk, hw]
  · have hu' : keysNodup (setCI nick newHost ul.users) := keysNodup_setCI ul.users nick newHost hu
    have ht' : keysNodup (eraseCI nick (setCI nick t₀ ul.temp)) :=
      keysNodup_eraseCI _ nick (keysNodup_setCI ul.temp nick t₀ ht)
    have hnone : lookupCI nick (eraseCI nick (setCI nick t₀ ul.temp)) = Option.none :=
      lookupCI_eraseCI_self _ nick (keysNodup_setCI ul.temp nick t₀ ht)
    show lookupCI nick (UserList.purgeAux tP (eraseCI nick (setCI nick t₀ ul.temp))
        ⟨setCI nick newHost ul.users, eraseCI nick (setCI nick t₀ ul.temp)⟩).users = some newHost
    rw [purgeAux_users_lookup tP _ _ nick hu']
    rw [any_expired_eq_lookupCI _ nick tP ht']
    rw [hnone]
    simpa using lookupCI_setCI_self ul.users nick newHost

/-- C5 witness: `Dan` parts at t=100, rejoins with a new hostmask, and a
purge at t=3000 (within the grace period of the stale marker) keeps the
new entry. -/
theorem C5_witness :
    (((UserList.mk [("Other", "other!o@h")] []).remove "Dan" 100).users
        = [("Other", "other!o@h")]) ∧
    lookupCI "Dan"
      ((((UserList.mk [("Other", "other!o@h")] []).remove "Dan" 100).set
        "Dan" "dan!x@new").purge 3000).users = some "dan!x@new" :=
  have h := C5_user_pending_removal (UserList.mk [("Other", "other!o@h")] [])
    "Dan" "dan!x@new" 100 3000 "Dan" (by decide) (by decide)
  ⟨h.1.1, h.2.2.2⟩

/-! ## Hostmask extractor lemmas -/

theorem pyFindL_lt_length (c : Char) (l : List Char) :
    pyFindL c l < (l.length : Int) := by
  induction l with
  | nil => simp [pyFindL]
  | cons x xs ih =>
      by_cases hx : x = c
      · simp only [pyFindL, if_pos hx, List.length_cons]
        push_cast
        omega
      · simp only [pyFindL, if_neg hx, List.length_cons]
        by_cases hneg : pyFindL c xs < 0
        · rw [if_pos hneg]
          push_cast
          omega
        · rw [if_neg hneg]
          push_cast at ih ⊢
          omega

/-- The user slice `s[n+1:m]` is empty exactly when `m = n + 1`. -/
theorem slice_user_empty_iff (s : String) (n m : Int)
    (hn : 0 < n) (hnm : n < m) (hlen : m < (s.data.length : Int)) :
    sliceL s.data (n.toNat + 1) m.toNat = [] ↔ m = n + 1 := by
  unfold sliceL
  rw [List.drop_eq_nil_iff, List.length_take]
  omega

/-- Exactly when `get_user` raises: the trim branch on a string shaped
`xx!@yy…` (an empty user part between `!` and `@`). -/
theorem get_user_eq_none_iff (s : String) (b : Bool) :
    get_user s b = Option.none ↔
      (b = true ∧ 0 < pyFind s '!' ∧ 2 < pyFind s '@' ∧
        pyFind s '@' = pyFind s '!' + 1) := by
  unfold get_user
  by_cases hg : 0 < pyFind s '!' ∧ 2 < pyFind s '@' ∧ pyFind s '!' < pyFind s '@'
  · rw [if_pos hg]
    obtain ⟨hn, hm, hnm⟩ := hg
    have hlen : pyFind s '@' < (s.data.length : Int) := pyFindL_lt_length '@' s.data
    have hempty := slice_user_empty_iff s (pyFind s '!') (pyFind s '@') hn hnm hlen
    cases b with
    | false =>
        rw [if_neg (by simp)]
        simp
    | true =>
        rw [if_pos rfl]
        cases hu : sliceL s.data ((pyFind s '!').toNat + 1) (pyFind s '@').toNat with
        | nil =>
            constructor
            · intro _
              exact ⟨by trivial, hn, hm, hempty.mp hu⟩
            · intro _
              rfl
        | cons c us =>
            constructor
            · intro hc
              exfalso
              simp only [List.head?_cons] at hc
              split at hc
              · exact Option.noConfusion hc
              · split at hc
                · exact Option.noConfusion hc
                · exact Option.noConfusion hc
            · rintro ⟨-, -, -, heq⟩
              exfalso
              have h0 := hempty.mpr heq
              rw [hu] at h0
              exact List.noConfusion h0
  · rw [if_neg hg]
    constructor
    · intro hc; exact absurd hc (by simp)
    · rintro ⟨-, hn, hm, heq⟩
      exact absurd ⟨hn, hm, by omega⟩ hg

/-- Under `is_hostmask` the user part is non-empty, so the trimming
`get_user` cannot raise. -/
theorem get_user_isSome_of_hostmask (s : String) (h : is_hostmask s = true) (b : Bool) :
    get_user s b ≠ Option.none := by
  intro hc
  rw [get_user_eq_none_iff] at hc
  obtain ⟨-, -, -, heq⟩ := hc
  simp only [is_hostmask, decide_eq_true_eq] at h
  omega

/-- C9 counterexample: `"a!b"` has no `'@'` — it is "missing the `'@'` of
the `nick!user@host` shape" — yet `get_nick` extracts `"a"` rather than
returning the empty string. -/
theorem C9_counterexample :
    pyFind "a!b" '@' = -1 ∧ get_nick "a!b" = "a" ∧ get_nick "a!b" ≠ "" := by decide

/-- C9 (amended): `get_nick` returns `""` whenever `'!'` is missing (each
extractor guards only its own separators); `get_host` returns `""`
whenever `'@'` is missing; `get_user` returns `""` when either is missing;
hence a string missing both gets `""` from all three. `get_nick` and
`get_host` are total, and `get_user` raises exactly in the trim branch on
an empty user part. -/
theorem C9_extractors_amended :
    (∀ s : String, pyFind s '!' = -1 →
        get_nick s = "" ∧ ∀ b, get_user s b = some "") ∧
    (∀ s : String, pyFind s '@' = -1 →
        get_host s = "" ∧ ∀ b, get_user s b = some "") ∧
    (∀ (s : String) (b : Bool), get_user s b = Option.none ↔
        (b = true ∧ 0 < pyFind s '!' ∧ 2 < pyFind s '@' ∧
          pyFind s '@' = pyFind s '!' + 1)) := by
  refine ⟨fun s h => ⟨?_, fun b => ?_⟩, fun s h => ⟨?_, fun b => ?_⟩,
    get_user_eq_none_iff⟩
  · simp [get_nick, h]
  · rw [get_user, if_neg (by rw [h]; rintro ⟨hc, -⟩; exact absurd hc (by norm_num))]
  · simp [get_host, h]
  · rw [get_user, if_neg (by rw [h]; rintro ⟨-, hc, -⟩; exact absurd hc (by norm_num))]

/-- C9 witness: the amended behaviour at concrete inputs. -/
theorem C9_witness :
    get_nick "abc" = "" ∧ get_user "abc" true = some "" ∧
    get_host "nick!user" = "" ∧ get_user "nick!user" false = some "" ∧
    get_user "ab!@cde" true = Option.none :=
  have h := C9_extractors_amended
  ⟨(h.1 "abc" (by decide)).1, (h.1 "abc" (by decide)).2 true,
   (h.2.1 "nick!user" (by decide)).1, (h.2.1 "nick!user" (by decide)).2 false,
   (h.2.2 "ab!@cde" true).mpr (by decide)⟩

/-- C10: a pattern that is not hostmask-shaped matches nothing through
`hostmask_pattern_match`, and consequently `MaskList.searchByHostmask`
only ever returns stored mask keys of `nick!user@host` shape. -/
theorem C10_nonhostmask_never_matches :
    (∀ (p : String) (xs : List String), is_hostmask p = false →
        hostmask_pattern_match p xs = []) ∧
    (∀ (ml : MaskList) (hm m : String), m ∈ ml.searchByHostmask hm →
        is_hostmask m = true) := by
  constructor
  · intro p xs hp
    simp [hostmask_pattern_match, hp]
  · intro ml hm m hmem
    cases hb : is_hostmask m with
    | true => rfl
    | false =>
        exfalso
        unfold MaskList.searchByHostmask at hmem
        have hpred := List.of_mem_filter hmem
        rw [show hostmask_pattern_match m [hm] = [] from by
          simp [hostmask_pattern_match, hb]] at hpred
        simp at hpred

/-- C10 witness: a channel-name pattern matches nothing, and a mask key
returned by a concrete `searchByHostmask` is hostmask-shaped. -/
theorem C10_witness :
    hostmask_pattern_match "#badchan" ["nick!user@host"] = [] ∧
    is_hostmask "nick!*@*" = true :=
  ⟨C10_nonhostmask_never_matches.1 "#badchan" ["nick!user@host"] (by decide),
   C10_nonhostmask_never_matches.2 (MaskList.mk [("nick!*@*", mobj0)] 0)
     "nick!user@host" "nick!*@*" (by decide)⟩

/-- C8: under the webchat strategy a hostmask-shaped input produces the
user-targeted `*!user@*` mask exactly under the source's triple condition
(host part not a valid hostname, trimmed user part hex-decodes to an IPv4
address, decoded address not already inside the host part), and the
host-targeted `*!*@host` mask in every other case. -/
theorem C8_webchat_banmask (hm : String) (h : is_hostmask hm = true) :
    ((is_hostname (get_host hm) = false ∧
      is_ip (hex_to_ip ((get_user hm true).getD "")) = true ∧
      pyIn (hex_to_ip ((get_user hm true).getD "")) (get_host hm) = false) →
      make_banmask ["webchat"] hm = some ("*!" ++ (get_user hm false).getD "" ++ "@*")) ∧
    (¬(is_hostname (get_host hm) = false ∧
      is_ip (hex_to_ip ((get_user hm true).getD "")) = true ∧
      pyIn (hex_to_ip ((get_user hm true).getD "")) (get_host hm) = false) →
      make_banmask ["webchat"] hm = some ("*!*@" ++ get_host hm)) := by
  obtain ⟨u, hu⟩ : ∃ u, get_user hm true = some u := by
    cases hgu : get_user hm true with
    | none => exact absurd hgu (get_user_isSome_of_hostmask hm h true)
    | some u => exact ⟨u, rfl⟩
  have hmb : make_banmask ["webchat"] hm =
      (if !is_hostname (get_host hm) && is_ip (hex_to_ip u)
          && !pyIn (hex_to_ip u) (get_host hm)
       then some ("*!" ++ (get_user hm false).getD "" ++ "@*")
       else some ("*!*@" ++ get_host hm)) := by
    unfold make_banmask
    rw [if_neg (by decide), if_pos (by decide), hu]
  rw [hu]
  simp only [Option.getD_some]
  constructor
  · rintro ⟨h1, h2, h3⟩
    rw [hmb, if_pos (by rw [h1, h2, h3]; rfl)]
  · intro hneg
    rw [hmb, if_neg (fun hcond => hneg (by
      simp only [Bool.and_eq_true, Bool.not_eq_true'] at hcond
      exact ⟨hcond.1.1, hcond.1.2, hcond.2⟩))]

set_option maxRecDepth 8000 in
/-- C8 witness: a webchat gateway hostmask gets the user-targeted mask and
an ordinary hostmask gets the host-targeted mask. -/
theorem C8_witness :
    make_banmask ["webchat"] "nick!7f000001@gateway/x" = some "*!7f000001@*" ∧
    make_banmask ["webchat"] "nick!user@example.com" = some "*!*@example.com" :=
  ⟨(C8_webchat_banmask "nick!7f000001@gateway/x" (by decide)).1 (by decide),
   (C8_webchat_banmask "nick!user@example.com" (by decide)).2 (by decide)⟩

/-- C2 counterexample: after enqueuing 21 steps the queue holds all 21 of
them — `enqueue` itself clears nothing and reports nothing; the overflow
abort lives in `run()`. -/
theorem C2_counterexample :
    qs21.commands.length = 21 ∧ qs21.errors = 0 ∧ qs21.sent = [] := by decide

/-- C2 (amended): enqueuing the 21st step leaves 21 steps queued; the next
`run()` on a queue of more than 20 pending steps reports overflow exactly
once and clears the entire queue — all-or-nothing and before any of the
queued steps executes (nothing is sent). -/
theorem C2_overflow_amended (env : QEnv) (st : QState) (h : st.commands.length > 20) :
    CommandQueue.run env st =
      { st with commands := [], wait := 0, errors := st.errors + 1 } ∧
    (CommandQueue.run env st).sent = st.sent ∧
    (CommandQueue.run env st).commands.length = 0 := by
  unfold CommandQueue.run
  rw [if_pos h]
  exact ⟨rfl, rfl, rfl⟩

/-- C2 witness: running the 21-step queue aborts it whole. -/
theorem C2_overflow_witness :
    CommandQueue.run qenvAll qs21 =
      { qs21 with commands := [], wait := 0, errors := qs21.errors + 1 } ∧
    (CommandQueue.run qenvAll qs21).sent = qs21.sent ∧
    (CommandQueue.run qenvAll qs21).commands.length = 0 :=
  C2_overflow_amended qenvAll qs21 (by decide)

/-- A run over `Normal`-only steps drains the queue. -/
theorem runLoop_commands_nil (env : QEnv) (l : List QStep) (st : QState)
    (hall : ∀ p ∈ l, p.isNormal = true) (hc : st.commands = l) :
    (runLoop env l st).commands = [] := by
  induction l generalizing st with
  | nil =>
      show ({ st with wait := 0 } : QState).commands = []
      simpa using hc
  | cons p rest ih =>
      cases p with
      | normal c b wt =>
          show (runLoop env rest
            { st with
              commands := rest,
              sent := st.sent ++ [(b, msgText c wt)] }).commands = []
          exact ih _ (fun q hq => hall q (List.mem_cons_of_mem _ hq)) rfl
      | waitForOp c sv ch nk b wt =>
          exact absurd (hall _ (List.mem_cons_self _ _)) (by simp [QStep.isNormal])
      | addChannel sv ch =>
          exact absurd (hall _ (List.mem_cons_self _ _)) (by simp [QStep.isNormal])

/-- C1: a `WaitForOp` step at the head of a run (with at most 20 pending
commands, so the overflow guard passes) sends its command, installs the
confirmation subscription and the 60 s timer, and halts `run()` leaving
every remaining step queued; a confirmation event matching the expected
server and `MODE <channel> +o <nick>` data removes both hooks and resumes
`run()` on the remaining steps (draining them when they are all `Normal`);
any non-matching event changes nothing; the timeout clears the whole
remaining queue, removes the subscription, and reports exactly once (a
second firing is impossible — the timer hook is gone). -/
theorem C1_suspend_resume (env : QEnv) (cmd srv chan nick buf : String) (w : Nat)
    (rest : List QStep) (s₀ : QState)
    (hcmds : s₀.commands = QStep.waitForOp cmd srv chan nick buf w :: rest)
    (hlen : rest.length ≤ 19) :
    ((CommandQueue.run env s₀).commands = rest ∧
     (CommandQueue.run env s₀).hookSignal = some (srv, "MODE " ++ chan ++ " +o " ++ nick) ∧
     (CommandQueue.run env s₀).hookTimeout = some (srv ++ "." ++ chan) ∧
     (CommandQueue.run env s₀).sent = s₀.sent ++ [(buf, msgText cmd w)]) ∧
    (∀ evS evD : String, signalMatch srv evS = true →
        confirmMatches evD ("MODE " ++ chan ++ " +o " ++ nick) = true →
        signalEvent env evS evD (CommandQueue.run env s₀) =
          CommandQueue.run env { CommandQueue.run env s₀ with
            hookSignal := Option.none, hookTimeout := Option.none }) ∧
    (∀ evS evD : String, signalMatch srv evS = true →
        confirmMatches evD ("MODE " ++ chan ++ " +o " ++ nick) = true →
        (∀ p ∈ rest, p.isNormal = true) →
        (signalEvent env evS evD (CommandQueue.run env s₀)).commands = []) ∧
    (∀ evS evD : String, signalMatch srv evS = false ∨
        confirmMatches evD ("MODE " ++ chan ++ " +o " ++ nick) = false →
        signalEvent env evS evD (CommandQueue.run env s₀) = CommandQueue.run env s₀) ∧
    (timeoutEvent (CommandQueue.run env s₀) =
      { CommandQueue.run env s₀ with
        commands := [], wait := 0,
        hookSignal := Option.none, hookTimeout := Option.none,
        errors := (CommandQueue.run env s₀).errors + 1 } ∧
     timeoutEvent (timeoutEvent (CommandQueue.run env s₀)) =
       timeoutEvent (CommandQueue.run env s₀)) := by
  have hrun : CommandQueue.run env s₀ =
      { s₀ with
        commands := rest,
        hookSignal := some (srv, "MODE " ++ chan ++ " +o " ++ nick),
        hookTimeout := some (srv ++ "." ++ chan),
        sent := s₀.sent ++ [(buf, msgText cmd w)] } := by
    unfold CommandQueue.run
    rw [hcmds]
    rw [if_neg (by simp only [List.length_cons]; omega)]
    show (runLoop env (QStep.waitForOp cmd srv chan nick buf w :: rest) s₀) = _
    simp [runLoop, callStep]
  refine ⟨⟨?_, ?_, ?_, ?_⟩, ?_, ?_, ?_, ?_, ?_⟩
  · rw [hrun]
  · rw [hrun]
  · rw [hrun]
  · rw [hrun]
  · intro evS evD h1 h2
    conv_lhs => rw [hrun]
    rw [show signalEvent env evS evD { s₀ with
        commands := rest,
        hookSignal := some (srv, "MODE " ++ chan ++ " +o " ++ nick),
        hookTimeout := some (srv ++ "." ++ chan),
        sent := s₀.sent ++ [(buf, msgText cmd w)] } =
      (if signalMatch srv evS && confirmMatches evD ("MODE " ++ chan ++ " +o " ++ nick) then
        CommandQueue.run env { s₀ with
          commands := rest,
          hookSignal := Option.none, hookTimeout := Option.none,
          sent := s₀.sent ++ [(buf, msgText cmd w)] }
       else { s₀ with
          commands := rest,
          hookSignal := some (srv, "MODE " ++ chan ++ " +o " ++ nick),
          hookTimeout := some (srv ++ "." ++ chan),
          sent := s₀.sent ++ [(buf, msgText cmd w)] }) from rfl]
    rw [h1, h2, hrun]
    rfl
  · intro evS evD h1 h2 hall
    have hmatch : signalEvent env evS evD (CommandQueue.run env s₀) =
        CommandQueue.run env { s₀ with
          commands := rest,
          hookSignal := Option.none, hookTimeout := Option.none,
          sent := s₀.sent ++ [(buf, msgText cmd w)] } := by
      rw [hrun]
      rw [show signalEvent env evS evD { s₀ with
          commands := rest,
          hookSignal := some (srv, "MODE " ++ chan ++ " +o " ++ nick),
          hookTimeout := some (srv ++ "." ++ chan),
          sent := s₀.sent ++ [(buf, msgText cmd w)] } =
        (if signalMatch srv evS && confirmMatches evD ("MODE " ++ chan ++ " +o " ++ nick) then
          CommandQueue.run env { s₀ with
            commands := rest,
            hookSignal := Option.none, hookTimeout := Option.none,
            sent := s₀.sent ++ [(buf, msgText cmd w)] }
         else { s₀ with
            commands := rest,
            hookSignal := some (srv, "MODE " ++ chan ++ " +o " ++ nick),
            hookTimeout := some (srv ++ "." ++ chan),
            sent := s₀.sent ++ [(buf, msgText cmd w)] }) from rfl]
      rw [h1, h2]
      rfl
    rw [hmatch]
    unfold CommandQueue.run
    rw [if_neg (by simp only; omega)]
    exact runLoop_commands_nil env rest _ hall rfl
  · intro evS evD hbad
    rw [hrun]
    rw [show signalEvent env evS evD { s₀ with
        commands := rest,
        hookSignal := some (srv, "MODE " ++ chan ++ " +o " ++ nick),
        hookTimeout := some (srv ++ "." ++ chan),
        sent := s₀.sent ++ [(buf, msgText cmd w)] } =
      (if signalMatch srv evS && confirmMatches evD ("MODE " ++ chan ++ " +o " ++ nick) then
        CommandQueue.run env { s₀ with
          commands := rest,
          hookSignal := Option.none, hookTimeout := Option.none,
          sent := s₀.sent ++ [(buf, msgText cmd w)] }
       else { s₀ with
          commands := rest,
          hookSignal := some (srv, "MODE " ++ chan ++ " +o " ++ nick),
          hookTimeout := some (srv ++ "." ++ chan),
          sent := s₀.sent ++ [(buf, msgText cmd w)] }) from rfl]
    rcases hbad with hb | hb
    · rw [hb, Bool.false_and, if_neg (by simp)]
    · rw [hb, Bool.and_false, if_neg (by simp)]
  · rw [hrun]
    rfl
  · rw [hrun]
    rfl

/-- C1 witness: the privilege-request scenario — `WaitForOp` then a
`Normal` kick — with a matching `MODE` confirmation, a non-matching one,
and the timeout. -/
theorem C1_witness :
    ((CommandQueue.run qenvAll qsOp).commands = [QStep.normal "/kick #chan bad" "buf" 1] ∧
     (CommandQueue.run qenvAll qsOp).hookSignal = some ("srv", "MODE #chan +o me") ∧
     (CommandQueue.run qenvAll qsOp).sent = [("buf", "/msg chanserv op #chan me")]) ∧
    (signalEvent qenvAll "srv" ":x!y@z MODE #chan +o me"
        (CommandQueue.run qenvAll qsOp)).commands = [] ∧
    signalEvent qenvAll "srv" ":x!y@z MODE #chan +o other"
        (CommandQueue.run qenvAll qsOp) = CommandQueue.run qenvAll qsOp ∧
    (timeoutEvent (CommandQueue.run qenvAll qsOp) =
      { CommandQueue.run qenvAll qsOp with
        commands := [], wait := 0,
        hookSignal := Option.none, hookTimeout := Option.none,
        errors := (CommandQueue.run qenvAll qsOp).errors + 1 } ∧
     timeoutEvent (timeoutEvent (CommandQueue.run qenvAll qsOp)) =
       timeoutEvent (CommandQueue.run qenvAll qsOp)) :=
  have h := C1_suspend_resume qenvAll "/msg chanserv op #chan me" "srv" "#chan" "me" "buf" 0
    [QStep.normal "/kick #chan bad" "buf" 1] qsOp rfl (by decide)
  ⟨⟨h.1.1, h.1.2.1, by rw [h.1.2.2.2]; rfl⟩,
   h.2.2.1 "srv" ":x!y@z MODE #chan +o me" (by decide) (by decide) (by decide),
   h.2.2.2.1 "srv" ":x!y@z MODE #chan +o other" (Or.inr (by decide)),
   h.2.2.2.2⟩

/-- C4 counterexample: a 367 list entry for `#other` arriving while the
FIFO head is `srv.#chan` is only reported as an error — the mask is *not*
added to the head entry's list (nor anywhere else). -/
theorem C4_counterexample :
    (masklist_add_cb 5000 "srv" ":irc.x 367 me #other *!*@bad.host op 1200" fsC4).errors = 1 ∧
    lookupCI "*!*@bad.host"
      (((lookupCIK ("srv", "#chan")
          (masklist_add_cb 5000 "srv" ":irc.x 367 me #other *!*@bad.host op 1200" fsC4).ban).getD
        MaskList.empty).entries) = Option.none ∧
    (masklist_add_cb 5000 "srv" ":irc.x 367 me #other *!*@bad.host op 1200" fsC4).ban
      = fsC4.ban := by decide

/-- C4 (amended): on a list-entry event whose `(server, channel)` does not
match the FIFO head, `masklist_add_cb` reports a reconciliation-mismatch
error and discards the record entirely: no list gains the mask and the
caches and FIFO are unchanged. -/
theorem C4_mismatch_amended (t : Int) (server string : String) (st : FetchState)
    (serv chan mode channel banmask op date : String)
    (restQ : List (String × String × String))
    (hq : st.hookQueue = (serv, chan, mode) :: restQ)
    (htoks : (pySplit string).drop ((pySplit string).length - 4)
        = [channel, banmask, op, date])
    (hmism : ¬(serv = server ∧ chan = channel)) :
    masklist_add_cb t server string st = { st with errors := st.errors + 1 } := by
  unfold masklist_add_cb
  have hlen : ¬((pySplit string).length < 4) := by
    intro hlt
    have h0 : (pySplit string).length - 4 = 0 := by omega
    rw [h0, List.drop_zero] at htoks
    rw [htoks] at hlt
    simp at hlt
  rw [if_neg hlen, htoks, hq]
  exact if_neg hmism

/-- C4 witness: the amended behaviour at the counterexample's input. -/
theorem C4_witness :
    masklist_add_cb 5000 "srv" ":irc.x 367 me #other *!*@bad.host op 1200" fsC4
      = { fsC4 with errors := fsC4.errors + 1 } :=
  C4_mismatch_amended 5000 "srv" _ fsC4 "srv" "#chan" "b" "#other" "*!*@bad.host"
    "op" "1200" [] rfl (by decide) (by decide)

/-- C3: the in-flight FIFO dedup works (the second `fetch` of the same key
is a no-op while the first is queued), but `masklist_end_cb` never writes
`fetch_time` — it stays 0 — so a second `fetch` 30 s after the first one
completed issues a second list-request command instead of being
suppressed by the 60-second window. -/
theorem C3_fetch_time_never_updated :
    (MaskCache.fetch fenvAll true 1001 "srv" "#chan"
        (MaskCache.fetch fenvAll true 1000 "srv" "#chan" fs0))
      = MaskCache.fetch fenvAll true 1000 "srv" "#chan" fs0 ∧
    (MaskCache.fetch fenvAll true 1000 "srv" "#chan" fs0).hookQueue
      = [("srv", "#chan", "b")] ∧
    (MaskCache.fetch fenvAll true 1000 "srv" "#chan" fs0).issued.length = 1 ∧
    (masklist_end_cb (MaskCache.fetch fenvAll true 1000 "srv" "#chan" fs0)).hookQueue = [] ∧
    ((lookupCIK ("srv", "#chan")
        (masklist_end_cb (MaskCache.fetch fenvAll true 1000 "srv" "#chan" fs0)).ban).map
      MaskList.fetch_time) = some 0 ∧
    (MaskCache.fetch fenvAll true 1030 "srv" "#chan"
        (masklist_end_cb (MaskCache.fetch fenvAll true 1000 "srv" "#chan" fs0))).issued.length
      = 2 ∧
    (MaskCache.fetch fenvAll true 1030 "srv" "#chan"
        (masklist_end_cb (MaskCache.fetch fenvAll true 1000 "srv" "#chan" fs0))).hookQueue
      = [("srv", "#chan", "b")] := by decide

end Chanop
